import Mathlib

set_option maxRecDepth 100000

/-!
Verification of the PAM-aware guide-extraction core of the CRISPRme
repository.  The definitions below are shallow embeddings of the Python
functions in src/src/crisprme/utils.py (notably PAM_DICT,
parse_PAM_sequence_file, parse_guide_sequences_file, extract_sequence and
get_guides) and of the padding logic in src/pages/main_page.py
(submit_job).  Python strings are modelled as lists of characters;
fallible code is modelled with Option or Except.
-/

namespace CRISPRme

/-- A Python string, modelled as a list of characters. -/
abbrev PyStr := List Char

/-- The PAM_DICT table from src/src/crisprme/utils.py (lines 67-83): each
IUPAC symbol is mapped to the string of IUPAC symbols compatible with it.
The Python dict is modelled as an association list, preserving key order. -/
def pamTable : List (Char × PyStr) :=
  [ ('A', "ARWMDHV".toList),
    ('C', "CYSMBHV".toList),
    ('G', "GRSKBDV".toList),
    ('T', "TYWKBDH".toList),
    ('R', "ARWMDHVSKBG".toList),
    ('Y', "CYSMBHVWKDT".toList),
    ('S', "CYSMBHVKDRG".toList),
    ('W', "ARWMDHVYKBT".toList),
    ('K', "GRSKBDVYWHT".toList),
    ('M', "ARWMDHVYSBC".toList),
    ('B', "CYSMBHVRKDGWT".toList),
    ('D', "ARWMDHVSKBGYT".toList),
    ('H', "ARWMDHVYSBCKT".toList),
    ('V', "ARWMDHVYSBCKG".toList),
    ('N', "ACGTRYSWKMBDHV".toList) ]

/-- Lookup in PAM_DICT; a missing key is a Python KeyError, modelled as
none. -/
def pamDict (c : Char) : Option PyStr :=
  (pamTable.find? (fun p => p.1 == c)).map Prod.snd

/-- The IUPAC complement table used by Bio.Seq.reverse_complement (the
biological sequence library the source calls); characters outside the
table are left unchanged by the library's translation. -/
def complTable : List (Char × Char) :=
  [ ('A', 'T'), ('C', 'G'), ('G', 'C'), ('T', 'A'),
    ('M', 'K'), ('R', 'Y'), ('W', 'W'), ('S', 'S'), ('Y', 'R'),
    ('V', 'B'), ('H', 'D'), ('K', 'M'), ('D', 'H'), ('B', 'V'),
    ('X', 'X'), ('N', 'N'),
    ('a', 't'), ('c', 'g'), ('g', 'c'), ('t', 'a'),
    ('m', 'k'), ('r', 'y'), ('w', 'w'), ('s', 's'), ('y', 'r'),
    ('v', 'b'), ('h', 'd'), ('k', 'm'), ('d', 'h'), ('b', 'v'),
    ('x', 'x'), ('n', 'n') ]

/-- Complement of a single character under the library's IUPAC table. -/
def complementIUPAC (c : Char) : Char :=
  match complTable.find? (fun p => p.1 == c) with
  | some p => p.2
  | none => c

/-- Bio.Seq reverse_complement: complement every character, then reverse. -/
def revComp (s : PyStr) : PyStr :=
  (s.map complementIUPAC).reverse

/-- The lower-to-upper table modelling Python str.upper on the characters
relevant to nucleotide sequences (ASCII letters). -/
def lowerUpper : List (Char × Char) :=
  [ ('a', 'A'), ('b', 'B'), ('c', 'C'), ('d', 'D'), ('e', 'E'), ('f', 'F'),
    ('g', 'G'), ('h', 'H'), ('i', 'I'), ('j', 'J'), ('k', 'K'), ('l', 'L'),
    ('m', 'M'), ('n', 'N'), ('o', 'O'), ('p', 'P'), ('q', 'Q'), ('r', 'R'),
    ('s', 'S'), ('t', 'T'), ('u', 'U'), ('v', 'V'), ('w', 'W'), ('x', 'X'),
    ('y', 'Y'), ('z', 'Z') ]

/-- Python str.upper on one character. -/
def pyUpper (c : Char) : Char :=
  match lowerUpper.find? (fun p => p.1 == c) with
  | some p => p.2
  | none => c

/-- itertools.product over a list of character lists, in Python's
iteration order (rightmost position varies fastest). -/
def cartProduct : List PyStr → List PyStr
  | [] => [[]]
  | xs :: rest => xs.flatMap (fun x => (cartProduct rest).map (fun t => x :: t))

/-- Positions of all (possibly overlapping) occurrences of a pattern in a
sequence, in increasing order: the embedding of
re.finditer with a lookahead pattern, which reports every 0-based offset
where the remaining suffix starts with the pattern. -/
def matchPositions (pat s : PyStr) : List Nat :=
  (List.range (s.length + 1)).filter (fun i => pat.isPrefixOf (s.drop i))

/-- Python slice s[a:b] for 0 ≤ a ≤ b. -/
def pySlice (s : PyStr) (a b : Nat) : PyStr :=
  (s.drop a).take (b - a)

/-- Forward-strand guide extraction for one hit at offset i, from the
forward loop of get_guides (utils.py lines 574-589): with pam_start the
hit is skipped when i exceeds len - guide_length - pam_length (an int
comparison in Python, hence over Int here) and otherwise yields
sequence[i+pam_length : i+pam_length+guide_length]; without pam_start the
hit is skipped when i < guide_length and otherwise yields
sequence[i-guide_length : i]. -/
def extractFwd (s : PyStr) (gl pl : Nat) (ps : Bool) (i : Nat) : Option PyStr :=
  if ps then
    if (i : Int) > (s.length : Int) - (gl : Int) - (pl : Int) then none
    else some (pySlice s (i + pl) (i + pl + gl))
  else
    if i < gl then none
    else some (pySlice s (i - gl) i)

/-- Reverse-strand guide extraction for one hit at offset i, from the
reverse loop of get_guides (utils.py lines 591-616); the sliced guide is
reverse-complemented before being reported. -/
def extractRev (s : PyStr) (gl pl : Nat) (ps : Bool) (i : Nat) : Option PyStr :=
  if ps then
    if i < gl then none
    else some (revComp (pySlice s (i - gl) i))
  else
    if (i : Int) > (s.length : Int) - (gl : Int) - (pl : Int) then none
    else some (revComp (pySlice s (i + pl) (i + gl + pl)))

/-- Error outcomes of get_guides: a KeyError from a PAM symbol missing
from PAM_DICT, or the AssertionError from the final
assert bool(guides). -/
inductive GuidesError where
  | keyError
  | assertionError
deriving DecidableEq, Repr

/-- The list comprehension building pam_expanded: PAM_DICT lookup for
each symbol in order, a missing symbol raising KeyError. -/
def expandSyms : PyStr → Except GuidesError (List PyStr)
  | [] => Except.ok []
  | c :: rest =>
      match pamDict c with
      | none => Except.error GuidesError.keyError
      | some e =>
          match expandSyms rest with
          | Except.error err => Except.error err
          | Except.ok es => Except.ok (e :: es)

/-- The guide lists built by the two extraction loops of get_guides:
for each forward pattern, every accepted forward hit contributes one
guide, then for each reverse pattern every accepted reverse hit
contributes one, in source order. -/
def guidesList (s : PyStr) (gl pl : Nat) (ps : Bool)
    (pats patsRev : List PyStr) : List PyStr :=
  pats.flatMap (fun pat => (matchPositions pat s).filterMap (extractFwd s gl pl ps))
    ++ patsRev.flatMap (fun pat => (matchPositions pat s).filterMap (extractRev s gl pl ps))

/-- The embedding of get_guides (utils.py lines 515-618): expand the PAM
and its reverse complement through PAM_DICT, upper-case the sequence, run
both extraction loops, and fail the final assertion when no guide was
collected. -/
def getGuides (sequence pam : PyStr) (guideLength : Nat) (pamStart : Bool) :
    Except GuidesError (List PyStr) :=
  match expandSyms pam, expandSyms (revComp pam) with
  | Except.error e, _ => Except.error e
  | Except.ok _, Except.error e => Except.error e
  | Except.ok ex, Except.ok exRev =>
      let guides := guidesList (sequence.map pyUpper) guideLength pam.length
        pamStart (cartProduct ex) (cartProduct exRev)
      if guides.isEmpty then Except.error GuidesError.assertionError
      else Except.ok guides

/-- Python str.isspace characters relevant to str.split() (no-argument
split: split on runs of whitespace, discarding empty fields). -/
def isPySpace (c : Char) : Bool :=
  c == ' ' || c == '\t' || c == '\n' || c == '\r' || c == '\x0b' || c == '\x0c'

/-- Worker for pySplit: accumulates the current (reversed) token. -/
def pySplitAux : PyStr → PyStr → List PyStr
  | [], acc => if acc.isEmpty then [] else [acc.reverse]
  | c :: rest, acc =>
      if isPySpace c then
        if acc.isEmpty then pySplitAux rest []
        else acc.reverse :: pySplitAux rest []
      else pySplitAux rest (c :: acc)

/-- Python str.split() with no arguments. -/
def pySplit (s : PyStr) : List PyStr :=
  pySplitAux s []

/-- Digit-run parser backing pyParseInt: all characters must be decimal
digits and at least one digit must be present. -/
def parseDigits (s : PyStr) : Option Nat :=
  if s.isEmpty then none
  else if s.all (fun c => c.isDigit) then
    some (s.foldl (fun n c => n * 10 + (c.toNat - '0'.toNat)) 0)
  else none

/-- Python int(token) on a whitespace-free token: optional sign followed
by decimal digits; anything else raises ValueError, modelled as none. -/
def pyParseInt (s : PyStr) : Option Int :=
  match s with
  | '-' :: rest => (parseDigits rest).map (fun n => -(n : Int))
  | '+' :: rest => (parseDigits rest).map (fun n => (n : Int))
  | _ => (parseDigits s).map (fun n => (n : Int))

/-- Python slice s[-k:]; for k = 0 this is s[0:], the whole string, and
for k greater than the length it is also the whole string. -/
def pyTail (s : PyStr) (k : Nat) : PyStr :=
  if k = 0 then s else s.drop (s.length - k)

/-- The embedding of the line-processing core of parse_PAM_sequence_file
(utils.py lines 297-332), applied to the first line of the PAM file:
returns (pam_char, pam_length, pam_total_length, pam_start), or none when
the code aborts through exception_handler (empty line, or trailing token
not an integer). -/
def parsePamLine (line : PyStr) : Option (PyStr × Nat × Nat × Bool) :=
  match pySplit line with
  | [] => none
  | t0 :: rest =>
      let total := t0.length
      match pyParseInt (rest.getLastD t0) with
      | none => none
      | some v =>
          if v < 0 then some (t0.take v.natAbs, v.natAbs, total, true)
          else some (pyTail t0 v.toNat, v.toNat, total, false)

/-- Error outcomes of batch guide extraction: a region fetch failure
(extract_sequence aborting through exception_handler), or the Python
TypeError raised by the get_guides call itself, which passes only four
of the five required arguments of get_guides (debug has no default). -/
inductive BatchError where
  | fetchFailure
  | typeError
deriving DecidableEq, Repr

/-- The extract_sequence boundary (utils.py lines 437-512): resolving a
coordinate string against the reference store is abstracted as a fetch
oracle; any failure aborts through exception_handler, modelled as an
error. -/
def extractSequenceM (fetch : PyStr → Option PyStr) (coords : PyStr) :
    Except BatchError PyStr :=
  match fetch coords with
  | some s => Except.ok s
  | none => Except.error BatchError.fetchFailure

/-- The BED branch of parse_guide_sequences_file (utils.py lines
408-417): each coordinate line is resolved through extract_sequence and
then passed to get_guides; any exception propagates and aborts the whole
call.  The call at line 417, get_guides(sequence, pam, guide_length,
pam_start), omits the fifth required parameter debug of get_guides
(lines 515-517), so whenever the fetch succeeds Python raises TypeError
at the call site, before any extraction runs; the loop therefore never
gets past its first iteration and no per-region result is ever
collected. -/
def parseGuideRegions (fetch : PyStr → Option PyStr) :
    List PyStr → Except BatchError (List (List PyStr))
  | [] => Except.ok []
  | coords :: _ =>
      match extractSequenceM fetch coords with
      | Except.error e => Except.error e
      | Except.ok _ => Except.error BatchError.typeError

/-- A run of pam_length N characters ("N" * pam_len in the source). -/
def nRun (k : Nat) : PyStr :=
  List.replicate k 'N'

/-- Python str.replace with a single-character pattern. -/
def pyReplaceChar (s : PyStr) (tgt : Char) (r : PyStr) : PyStr :=
  s.flatMap (fun c => if c = tgt then r else [c])

/-- Per-guide padding from parse_guide_sequences_file (utils.py lines
422-429): with pam_start the N run is prepended, otherwise appended. -/
def padGuide (pamStart : Bool) (k : Nat) (g : PyStr) : PyStr :=
  if pamStart then nRun k ++ g else g ++ nRun k

/-- The guides-file padding in submit_job (src/pages/main_page.py lines
595-603): operating on the newline-joined guide text, with pam_begin the
text is prefixed with the N run and every newline is replaced by a
newline followed by the N run; otherwise every newline is replaced by the
N run followed by a newline and the N run is appended. -/
def padGuidesText (pamBegin : Bool) (k : Nat) (text : PyStr) : PyStr :=
  if pamBegin then nRun k ++ pyReplaceChar text '\n' ('\n' :: nRun k)
  else pyReplaceChar text '\n' (nRun k ++ ['\n']) ++ nRun k

/-- "\n".join(guides): newline-joined guide text. -/
def joinNl : List PyStr → PyStr
  | [] => []
  | [g] => g
  | g :: rest => g ++ '\n' :: joinNl rest

/-- The keys of PAM_DICT, in dictionary order. -/
def pamSymbols : PyStr := "ACGTRYSWKMBDHVN".toList

/-- The expansion lists of the symbols of the motif NGG, as produced by
PAM_DICT. -/
def nggExpansion : List PyStr :=
  ["ACGTRYSWKMBDHV".toList, "GRSKBDV".toList, "GRSKBDV".toList]

section Helpers

/-- Every result of the lower-to-upper table is fixed by pyUpper. -/
theorem lowerUpper_snd_fix : ∀ p ∈ lowerUpper, pyUpper p.2 = p.2 := by decide

/-- Upper-casing a character twice is the same as doing it once. -/
theorem pyUpper_idem (c : Char) : pyUpper (pyUpper c) = pyUpper c := by
  rcases hf : lowerUpper.find? (fun p => p.1 == c) with _ | p
  · have h1 : pyUpper c = c := by simp [pyUpper, hf]
    rw [h1, h1]
  · have h1 : pyUpper c = p.2 := by simp [pyUpper, hf]
    rw [h1]
    exact lowerUpper_snd_fix p (List.mem_of_find?_eq_some hf)

/-- Every complement-table entry with an upper-cased key has an
upper-cased value. -/
theorem complTable_fix : ∀ p ∈ complTable, pyUpper p.1 ≠ p.1 ∨ pyUpper p.2 = p.2 := by
  decide

/-- Complementation preserves being fixed under upper-casing. -/
theorem pyUpper_complementIUPAC (c : Char) (h : pyUpper c = c) :
    pyUpper (complementIUPAC c) = complementIUPAC c := by
  rcases hf : complTable.find? (fun p => p.1 == c) with _ | p
  · have h1 : complementIUPAC c = c := by simp [complementIUPAC, hf]
    rw [h1]
    exact h
  · have h1 : complementIUPAC c = p.2 := by simp [complementIUPAC, hf]
    have hpc : p.1 = c := by simpa using List.find?_some hf
    rcases complTable_fix p (List.mem_of_find?_eq_some hf) with hbad | hgood
    · exact absurd (hpc ▸ h) hbad
    · rw [h1]
      exact hgood

/-- Membership in the Cartesian product is pointwise membership in the
factor lists. -/
theorem mem_cartProduct {ls : List PyStr} {p : PyStr} :
    p ∈ cartProduct ls ↔ List.Forall₂ (fun c cs => c ∈ cs) p ls := by
  induction ls generalizing p with
  | nil =>
      simp only [cartProduct, List.mem_singleton]
      constructor
      · rintro rfl
        exact List.Forall₂.nil
      · intro h
        cases h
        rfl
  | cons xs rest ih =>
      simp only [cartProduct, List.mem_flatMap, List.mem_map]
      constructor
      · rintro ⟨x, hx, t, ht, rfl⟩
        exact List.Forall₂.cons hx (ih.mp ht)
      · intro h
        cases h with
        | cons hx ht => exact ⟨_, hx, _, ih.mpr ht, rfl⟩

/-- Each value stored in the PAM table is duplicate-free. -/
theorem pamTable_vals_nodup : ∀ p ∈ pamTable, p.2.Nodup := by decide

/-- Every PAM_DICT lookup result is duplicate-free. -/
theorem pamDict_nodup (c : Char) (l : PyStr) (h : pamDict c = some l) :
    l.Nodup := by
  unfold pamDict at h
  rcases hf : pamTable.find? (fun p => p.1 == c) with _ | p
  · rw [hf] at h
    cases h
  · rw [hf] at h
    injection h with h2
    exact h2 ▸ pamTable_vals_nodup p (List.mem_of_find?_eq_some hf)

/-- The Cartesian product of duplicate-free lists is duplicate-free. -/
theorem cartProduct_nodup (ls : List PyStr) (h : ∀ l ∈ ls, l.Nodup) :
    (cartProduct ls).Nodup := by
  induction ls with
  | nil => simp [cartProduct]
  | cons xs rest ih =>
      have hxs : xs.Nodup := h xs (List.mem_cons_self xs rest)
      have hrest := ih (fun l hl => h l (List.mem_cons_of_mem _ hl))
      rw [cartProduct, List.nodup_flatMap]
      refine ⟨fun x _ => hrest.map (List.cons_injective), ?_⟩
      refine hxs.imp ?_
      intro a b hab
      intro p hpa hpb
      simp only [Function.onFun, List.mem_map] at hpa hpb
      obtain ⟨t, _, rfl⟩ := hpa
      obtain ⟨t2, _, heq⟩ := hpb
      injection heq with hh _
      exact hab hh.symm

/-- Every member of a successful symbol expansion is a PAM_DICT value. -/
theorem expandSyms_mem (pam : PyStr) (ex : List PyStr)
    (h : expandSyms pam = Except.ok ex) :
    ∀ l ∈ ex, ∃ c, pamDict c = some l := by
  induction pam generalizing ex with
  | nil =>
      simp only [expandSyms] at h
      injection h with h2
      subst h2
      intro l hl
      cases hl
  | cons c rest ih =>
      rcases hd : pamDict c with _ | e
      · simp only [expandSyms, hd] at h
        cases h
      · rcases hr : expandSyms rest with err | es
        · simp only [expandSyms, hd, hr] at h
          cases h
        · simp only [expandSyms, hd, hr] at h
          injection h with h2
          subst h2
          intro l hl
          rcases List.mem_cons.mp hl with rfl | hl2
          · exact ⟨c, hd⟩
          · exact ih es hr l hl2

/-- A match position never exceeds the sequence length. -/
theorem matchPositions_le (pat s : PyStr) (i : Nat) (h : i ∈ matchPositions pat s) :
    i ≤ s.length := by
  have h1 := (List.mem_filter.mp h).1
  have h2 := List.mem_range.mp h1
  omega

/-- Characters of a slice are characters of the sequence. -/
theorem pySlice_mem (s : PyStr) (a b : Nat) (c : Char) (h : c ∈ pySlice s a b) :
    c ∈ s := by
  unfold pySlice at h
  exact List.mem_of_mem_drop (List.mem_of_mem_take h)

/-- Reverse complementation preserves length. -/
theorem revComp_length (l : PyStr) : (revComp l).length = l.length := by
  simp [revComp]

/-- Characters of a reverse complement are complements of characters of
the original. -/
theorem revComp_mem (l : PyStr) (c : Char) (h : c ∈ revComp l) :
    ∃ d ∈ l, c = complementIUPAC d := by
  unfold revComp at h
  rw [List.mem_reverse] at h
  rcases List.mem_map.mp h with ⟨d, hd, hc⟩
  exact ⟨d, hd, hc.symm⟩

/-- A successful forward extraction yields a full-length guide whose
characters come from the scanned sequence. -/
theorem extractFwd_spec (s : PyStr) (gl pl i : Nat) (ps : Bool) (g : PyStr)
    (hi : i ≤ s.length) (h : extractFwd s gl pl ps i = some g) :
    g.length = gl ∧ ∀ c ∈ g, c ∈ s := by
  unfold extractFwd at h
  split at h
  · split at h
    · exact Option.noConfusion h
    · injection h with h2
      subst h2
      rename_i hguard
      refine ⟨?_, fun c hc => pySlice_mem s _ _ c hc⟩
      simp only [pySlice, List.length_take, List.length_drop]
      omega
  · split at h
    · exact Option.noConfusion h
    · injection h with h2
      subst h2
      rename_i hguard
      refine ⟨?_, fun c hc => pySlice_mem s _ _ c hc⟩
      simp only [pySlice, List.length_take, List.length_drop]
      omega

/-- A successful reverse extraction yields a full-length guide whose
characters are complements of characters of the scanned sequence. -/
theorem extractRev_spec (s : PyStr) (gl pl i : Nat) (ps : Bool) (g : PyStr)
    (hi : i ≤ s.length) (h : extractRev s gl pl ps i = some g) :
    g.length = gl ∧ ∀ c ∈ g, ∃ d ∈ s, c = complementIUPAC d := by
  unfold extractRev at h
  split at h
  · split at h
    · exact Option.noConfusion h
    · injection h with h2
      subst h2
      rename_i hguard
      constructor
      · rw [revComp_length]
        simp only [pySlice, List.length_take, List.length_drop]
        omega
      · intro c hc
        rcases revComp_mem _ c hc with ⟨d, hd, hcd⟩
        exact ⟨d, pySlice_mem s _ _ d hd, hcd⟩
  · split at h
    · exact Option.noConfusion h
    · injection h with h2
      subst h2
      rename_i hguard
      constructor
      · rw [revComp_length]
        simp only [pySlice, List.length_take, List.length_drop]
        omega
      · intro c hc
        rcases revComp_mem _ c hc with ⟨d, hd, hcd⟩
        exact ⟨d, pySlice_mem s _ _ d hd, hcd⟩

/-- Inversion for a successful get_guides call: the assertion passed (so
the result is nonempty) and the result is the list produced by the two
extraction loops over the Cartesian expansions of the PAM and of its
reverse complement. -/
theorem getGuides_ok_inv (sequence pam : PyStr) (gl : Nat) (ps : Bool)
    (gs : List PyStr) (h : getGuides sequence pam gl ps = Except.ok gs) :
    gs ≠ [] ∧ ∃ ex exRev, expandSyms pam = Except.ok ex ∧
      expandSyms (revComp pam) = Except.ok exRev ∧
      gs = guidesList (sequence.map pyUpper) gl pam.length ps
        (cartProduct ex) (cartProduct exRev) := by
  unfold getGuides at h
  rcases h1 : expandSyms pam with e | ex
  · rw [h1] at h
    cases h
  · rw [h1] at h
    rcases h2 : expandSyms (revComp pam) with e | exRev
    · rw [h2] at h
      cases h
    · rw [h2] at h
      simp only at h
      split at h
      · cases h
      · injection h with h3
        subst h3
        rename_i hne
        refine ⟨?_, ex, exRev, rfl, rfl, rfl⟩
        intro hempty
        rw [hempty] at hne
        simp at hne

/-- Characters of the upper-cased sequence are fixed by upper-casing. -/
theorem mem_upper_fix (sequence : PyStr) (c : Char)
    (h : c ∈ sequence.map pyUpper) : pyUpper c = c := by
  rcases List.mem_map.mp h with ⟨d, _, hd⟩
  exact hd ▸ pyUpper_idem d

end Helpers

/-- C9: for every PAM symbol in the ambiguity table, expanding the
complement of the symbol gives, as a set, the complement of the symbol's
expansion. -/
theorem expand_complement_sets :
    ∀ c ∈ pamSymbols,
      (((pamDict c).getD []).map complementIUPAC).toFinset
        = ((pamDict (complementIUPAC c)).getD []).toFinset := by
  decide

/-- Witness for C9 at the symbol R: the complement of the expansion of R
is, as a set, the expansion of Y. -/
theorem expand_complement_sets_witness :
    (((pamDict 'R').getD []).map complementIUPAC).toFinset
      = ((pamDict (complementIUPAC 'R')).getD []).toFinset :=
  expand_complement_sets 'R' (by decide)

/-- C1, amended: the forward pattern set is the duplicate-free Cartesian
product across positions of each symbol's compatible-code set from
PAM_DICT (not of its concrete base set); NGG expands to 686 forward
patterns, among which the four concrete patterns AGG, CGG, GGG, TGG. -/
theorem forward_pattern_expansion (pam : PyStr) (ex : List PyStr)
    (h : expandSyms pam = Except.ok ex) :
    (cartProduct ex).Nodup ∧
      (∀ p, p ∈ cartProduct ex ↔ List.Forall₂ (fun c cs => c ∈ cs) p ex) ∧
      expandSyms ['N', 'G', 'G'] = Except.ok nggExpansion ∧
      (cartProduct nggExpansion).length = 686 ∧
      ['A', 'G', 'G'] ∈ cartProduct nggExpansion ∧
      ['C', 'G', 'G'] ∈ cartProduct nggExpansion ∧
      ['G', 'G', 'G'] ∈ cartProduct nggExpansion ∧
      ['T', 'G', 'G'] ∈ cartProduct nggExpansion := by
  refine ⟨cartProduct_nodup ex ?_, fun p => mem_cartProduct, by rfl, by rfl,
    by decide, by decide, by decide, by decide⟩
  intro l hl
  rcases expandSyms_mem pam ex h l hl with ⟨c, hc⟩
  exact pamDict_nodup c l hc

/-- Witness for C1 at the motif NGG. -/
theorem forward_pattern_expansion_witness :
    (cartProduct nggExpansion).Nodup ∧
      (['A', 'R', 'R'] ∈ cartProduct nggExpansion ↔
        List.Forall₂ (fun c cs => c ∈ cs) ['A', 'R', 'R'] nggExpansion) :=
  ⟨(forward_pattern_expansion ['N', 'G', 'G'] nggExpansion rfl).1,
    (forward_pattern_expansion ['N', 'G', 'G'] nggExpansion rfl).2.1
      ['A', 'R', 'R']⟩

/-- C1 counterexample: the expander output for NGG contains the pattern
ARR, which is not one of the four concrete patterns, so the forward
pattern set is not the concrete-base Cartesian product and NGG does not
expand to exactly AGG, CGG, GGG, TGG. -/
theorem ngg_expansion_not_concrete :
    expandSyms ['N', 'G', 'G'] = Except.ok nggExpansion ∧
      ['A', 'R', 'R'] ∈ cartProduct nggExpansion ∧
      ['A', 'R', 'R'] ∉
        [['A', 'G', 'G'], ['C', 'G', 'G'], ['G', 'G', 'G'], ['T', 'G', 'G']] := by
  refine ⟨by rfl, by decide, by decide⟩

/-- C4, amended: a PAM line whose trailing integer token is zero parses
successfully instead of failing: the Python slice motif[-0:] is the whole
motif, so the result is the full motif with pam_length 0 and pam_start
false. -/
theorem parse_zero_offset (line motif : PyStr)
    (h : pySplit line = [motif, ['0']]) :
    parsePamLine line = some (motif, 0, motif.length, false) := by
  unfold parsePamLine
  rw [h]
  simp [List.getLastD, pyParseInt, parseDigits, pyTail]

/-- Witness for C4 at the line NGG 0. -/
theorem parse_zero_offset_witness :
    parsePamLine "NGG 0".toList = some ("NGG".toList, 0, 3, false) :=
  parse_zero_offset "NGG 0".toList "NGG".toList (by decide)

/-- C4 counterexample: parsing the line NGG 0 does not fail, refuting the
claim that a zero trailing token is rejected. -/
theorem parse_zero_offset_not_error :
    (parsePamLine "NGG 0".toList).isSome = true := by decide

/-- C3, amended: when zero guides survive extraction, get_guides does not
return an empty result: the final assertion fails.  Hence a successful
get_guides result is never empty. -/
theorem getGuides_ok_nonempty (sequence pam : PyStr) (gl : Nat) (ps : Bool)
    (gs : List PyStr) (h : getGuides sequence pam gl ps = Except.ok gs) :
    gs ≠ [] :=
  (getGuides_ok_inv sequence pam gl ps gs h).1

/-- Witness for C3 on a sequence with one surviving guide. -/
theorem getGuides_ok_nonempty_witness :
    getGuides "AAGG".toList "GG".toList 2 false = Except.ok [['A', 'A']] ∧
      ([['A', 'A']] : List PyStr) ≠ [] :=
  ⟨rfl, getGuides_ok_nonempty "AAGG".toList "GG".toList 2 false [['A', 'A']] rfl⟩

/-- C3 counterexample: on a sequence with no PAM occurrence on either
strand, get_guides raises the final assertion instead of returning an
empty result. -/
theorem getGuides_empty_asserts :
    getGuides "TTTT".toList "GG".toList 2 false
      = Except.error GuidesError.assertionError := by rfl

/-- C5, amended: the guide collection produced by extraction is not
deduplicated: each accepted hit contributes its own entry, so a guide
arising from several hits appears several times; on AGGAGG with the
downstream PAM GG and guide length 1 the guide A is returned twice. -/
theorem extraction_keeps_per_hit_entries :
    getGuides "AGGAGG".toList "GG".toList 1 false
        = Except.ok [['A'], ['A']] ∧
      ¬ ([['A'], ['A']] : List PyStr).Nodup :=
  ⟨rfl, by decide⟩

/-- C5 counterexample: the guide A appears twice in the extraction output
for AGGAGG, refuting the claim that each distinct guide string appears
exactly once. -/
theorem duplicate_guides_kept :
    getGuides "AGGAGG".toList "GG".toList 1 false = Except.ok [['A'], ['A']] ∧
      List.count ['A'] [['A'], ['A']] = 2 :=
  ⟨rfl, by decide⟩

/-- C2: for a forward-strand hit at offset i (with i at most the sequence
length, as every match position is): in the downstream convention
(pam_start false) the hit yields sequence[i-guide_length : i] and is
skipped, without error, exactly when i < guide_length; in the upstream
convention (pam_start true) it yields
sequence[i+pam_length : i+pam_length+guide_length] and is skipped exactly
when i + pam_length + guide_length > len(sequence); and every guide that
is produced has full length, so no rejected hit yields a truncated
guide. -/
theorem forward_hit_extraction (s : PyStr) (gl pl i : Nat) (hi : i ≤ s.length) :
    (extractFwd s gl pl false i = none ↔ i < gl) ∧
      (gl ≤ i → extractFwd s gl pl false i = some (pySlice s (i - gl) i)) ∧
      (extractFwd s gl pl true i = none ↔ i + pl + gl > s.length) ∧
      (i + pl + gl ≤ s.length →
        extractFwd s gl pl true i = some (pySlice s (i + pl) (i + pl + gl))) ∧
      (∀ ps g, extractFwd s gl pl ps i = some g → g.length = gl) := by
  refine ⟨?_, ?_, ?_, ?_, fun ps g h => (extractFwd_spec s gl pl i ps g hi h).1⟩
  · unfold extractFwd
    rw [if_neg (by simp)]
    split
    · exact iff_of_true rfl (by assumption)
    · exact iff_of_false (by simp) (by assumption)
  · intro hgl
    unfold extractFwd
    rw [if_neg (by simp), if_neg (by omega)]
  · unfold extractFwd
    rw [if_pos rfl]
    split
    · rename_i hguard
      exact iff_of_true rfl (by omega)
    · rename_i hguard
      exact iff_of_false (by simp) (by omega)
  · intro hle
    unfold extractFwd
    rw [if_pos rfl, if_neg (by omega)]

/-- Witness for C2 on the sequence AAGG with guide length 2 and PAM
length 2 at hit offset 2. -/
theorem forward_hit_extraction_witness :
    (2 ≤ ("AAGG".toList : PyStr).length) ∧
      ((extractFwd "AAGG".toList 2 2 false 2 = none ↔ 2 < 2) ∧
        (2 ≤ 2 →
          extractFwd "AAGG".toList 2 2 false 2
            = some (pySlice "AAGG".toList (2 - 2) 2)) ∧
        (extractFwd "AAGG".toList 2 2 true 2 = none ↔
          2 + 2 + 2 > ("AAGG".toList : PyStr).length) ∧
        (2 + 2 + 2 ≤ ("AAGG".toList : PyStr).length →
          extractFwd "AAGG".toList 2 2 true 2
            = some (pySlice "AAGG".toList (2 + 2) (2 + 2 + 2))) ∧
        (∀ ps g, extractFwd "AAGG".toList 2 2 ps 2 = some g → g.length = 2)) :=
  ⟨by decide, forward_hit_extraction "AAGG".toList 2 2 2 (by decide)⟩

/-- C10: whenever get_guides returns normally, every returned guide has
length exactly guide_length and consists only of characters fixed by
upper-casing (the sequence is upper-cased before scanning and
complementation maps upper-case characters to upper-case characters), so
no partial or lower-case guide is ever emitted. -/
theorem guides_full_length_upper (sequence pam : PyStr) (gl : Nat) (ps : Bool)
    (gs : List PyStr) (h : getGuides sequence pam gl ps = Except.ok gs) :
    ∀ g ∈ gs, g.length = gl ∧ ∀ c ∈ g, pyUpper c = c := by
  obtain ⟨-, ex, exRev, -, -, rfl⟩ := getGuides_ok_inv sequence pam gl ps gs h
  intro g hg
  unfold guidesList at hg
  rcases List.mem_append.mp hg with hf | hr
  · rcases List.mem_flatMap.mp hf with ⟨pat, -, hg2⟩
    rcases List.mem_filterMap.mp hg2 with ⟨i, hipos, hext⟩
    have hi := matchPositions_le pat _ i hipos
    obtain ⟨hlen, hmem⟩ := extractFwd_spec _ gl pam.length i ps g hi hext
    exact ⟨hlen, fun c hc => mem_upper_fix sequence c (hmem c hc)⟩
  · rcases List.mem_flatMap.mp hr with ⟨pat, -, hg2⟩
    rcases List.mem_filterMap.mp hg2 with ⟨i, hipos, hext⟩
    have hi := matchPositions_le pat _ i hipos
    obtain ⟨hlen, hmem⟩ := extractRev_spec _ gl pam.length i ps g hi hext
    refine ⟨hlen, fun c hc => ?_⟩
    rcases hmem c hc with ⟨d, hd, rfl⟩
    exact pyUpper_complementIUPAC d (mem_upper_fix sequence d hd)

/-- Witness for C10 on a lower-case input sequence. -/
theorem guides_full_length_upper_witness :
    getGuides "aagg".toList "GG".toList 2 false = Except.ok [['A', 'A']] ∧
      (∀ g ∈ ([['A', 'A']] : List PyStr),
        g.length = 2 ∧ ∀ c ∈ g, pyUpper c = c) :=
  ⟨rfl, guides_full_length_upper "aagg".toList "GG".toList 2 false
    [['A', 'A']] rfl⟩

/-- C8, amended: the round trip holds in the concrete scenario (and
whenever no extra forward or reverse-strand pattern occurrence appears in
the synthetic sequence): with PAM NGG, guide length 20 and the downstream
convention, the sequence of twenty A characters followed by TGG yields
exactly the single guide of twenty A characters. -/
theorem ngg_roundtrip_concrete :
    getGuides ("AAAAAAAAAAAAAAAAAAAA".toList ++ "TGG".toList)
        "NGG".toList 20 false
      = Except.ok [List.replicate 20 'A'] := by rfl

/-- C8 counterexample: for the guide CCAA and the non-degenerate
downstream PAM GG, the synthetic sequence guide ++ pam also carries a
reverse-strand PAM occurrence, so extraction returns the extra guide CCTT
besides CCAA; the result is not exactly the singleton containing the
original guide. -/
theorem roundtrip_reverse_hit :
    getGuides ("CCAA".toList ++ "GG".toList) "GG".toList 4 false
        = Except.ok ["CCAA".toList, "CCTT".toList] ∧
      ("CCTT".toList : PyStr) ≠ "CCAA".toList :=
  ⟨rfl, by decide⟩

/-- C6, amended: the extraction call always aborts at the first region
of a nonempty batch, so a single failure is never isolated: if the first
region's fetch fails the call aborts with that fetch failure, and if the
first fetch succeeds the call aborts with the TypeError raised by the
four-argument get_guides call; either way no batch with at least one
region ever returns per-region results. -/
theorem batch_aborts_at_first_region (fetch : PyStr → Option PyStr)
    (coords : PyStr) (rest : List PyStr) :
    (fetch coords = none →
      parseGuideRegions fetch (coords :: rest)
        = Except.error BatchError.fetchFailure) ∧
      (∀ s, fetch coords = some s →
        parseGuideRegions fetch (coords :: rest)
          = Except.error BatchError.typeError) ∧
      (∀ rs, parseGuideRegions fetch (coords :: rest) ≠ Except.ok rs) := by
  refine ⟨?_, ?_, ?_⟩
  · intro h
    simp only [parseGuideRegions, extractSequenceM, h]
  · intro s h
    simp only [parseGuideRegions, extractSequenceM, h]
  · intro rs hok
    rcases h : fetch coords with _ | s
    · simp only [parseGuideRegions, extractSequenceM, h] at hok
      cases hok
    · simp only [parseGuideRegions, extractSequenceM, h] at hok
      cases hok

/-- A fetch oracle for the C6 scenario: region b cannot be fetched, every
other region resolves to the sequence AAGG. -/
def fetchW : PyStr → Option PyStr :=
  fun coords => if coords = ['b'] then none else some "AAGG".toList

/-- Witness for C6: a batch starting with the unfetchable region b aborts
with the fetch failure, and a batch starting with the fetchable region a
aborts with the TypeError of the get_guides call. -/
theorem batch_aborts_at_first_region_witness :
    parseGuideRegions fetchW [['b'], ['d']]
        = Except.error BatchError.fetchFailure ∧
      parseGuideRegions fetchW [['a'], ['b'], ['d']]
        = Except.error BatchError.typeError :=
  ⟨(batch_aborts_at_first_region fetchW ['b'] [['d']]).1 rfl,
    (batch_aborts_at_first_region fetchW ['a'] [['b'], ['d']]).2.1
      "AAGG".toList rfl⟩

/-- C6 counterexample: in the batch a, b, d only region b fails to fetch,
yet the call aborts at region a with the TypeError of the four-argument
get_guides call: the other regions are not processed to completion and
the surfaced error is not even b's fetch failure; a single region d also
aborts, so no region is ever processed to completion. -/
theorem batch_no_region_succeeds :
    parseGuideRegions fetchW [['a'], ['b'], ['d']]
        = Except.error BatchError.typeError ∧
      parseGuideRegions fetchW [['b']] = Except.error BatchError.fetchFailure ∧
      parseGuideRegions fetchW [['d']] = Except.error BatchError.typeError :=
  ⟨rfl, rfl, rfl⟩

/-- Replacing a character distributes over concatenation. -/
theorem pyReplaceChar_append (a b : PyStr) (tgt : Char) (r : PyStr) :
    pyReplaceChar (a ++ b) tgt r
      = pyReplaceChar a tgt r ++ pyReplaceChar b tgt r :=
  List.flatMap_append a b _

/-- Replacing a character that does not occur is the identity. -/
theorem pyReplaceChar_no_tgt (g : PyStr) (tgt : Char) (r : PyStr)
    (h : tgt ∉ g) : pyReplaceChar g tgt r = g := by
  induction g with
  | nil => rfl
  | cons c rest ih =>
      have hc : ¬ c = tgt := fun hq => h (hq ▸ List.mem_cons_self c rest)
      have hrest : tgt ∉ rest := fun hq => h (List.mem_cons_of_mem _ hq)
      simp only [pyReplaceChar, List.flatMap_cons] at ih ⊢
      rw [if_neg hc, ih hrest]
      rfl

/-- Replacing the leading occurrence of the target character. -/
theorem pyReplaceChar_cons_tgt (tgt : Char) (r t : PyStr) :
    pyReplaceChar (tgt :: t) tgt r = r ++ pyReplaceChar t tgt r := by
  simp [pyReplaceChar]

/-- The pam_begin branch of the guides-file padding applied to joined
newline-free guides prefixes every guide with the N run. -/
theorem padText_begin (k : Nat) :
    ∀ gs : List PyStr, gs ≠ [] → (∀ g ∈ gs, '\n' ∉ g) →
      nRun k ++ pyReplaceChar (joinNl gs) '\n' ('\n' :: nRun k)
        = joinNl (gs.map (fun g => nRun k ++ g))
  | [], hne, _ => absurd rfl hne
  | [g], _, hnl => by
      simp only [joinNl, List.map_cons, List.map_nil]
      rw [pyReplaceChar_no_tgt g '\n' _ (hnl g (List.mem_cons_self g []))]
  | g :: g2 :: rest, _, hnl => by
      have ih := padText_begin k (g2 :: rest) (by simp)
        (fun x hx => hnl x (List.mem_cons_of_mem _ hx))
      rw [List.map_cons] at ih
      simp only [joinNl, List.map_cons]
      rw [pyReplaceChar_append, pyReplaceChar_cons_tgt,
        pyReplaceChar_no_tgt g '\n' _ (hnl g (List.mem_cons_self g _)), ← ih]
      simp [List.append_assoc]

/-- The non-pam_begin branch of the guides-file padding applied to joined
newline-free guides suffixes every guide with the N run. -/
theorem padText_end (k : Nat) :
    ∀ gs : List PyStr, gs ≠ [] → (∀ g ∈ gs, '\n' ∉ g) →
      pyReplaceChar (joinNl gs) '\n' (nRun k ++ ['\n']) ++ nRun k
        = joinNl (gs.map (fun g => g ++ nRun k))
  | [], hne, _ => absurd rfl hne
  | [g], _, hnl => by
      simp only [joinNl, List.map_cons, List.map_nil]
      rw [pyReplaceChar_no_tgt g '\n' _ (hnl g (List.mem_cons_self g []))]
  | g :: g2 :: rest, _, hnl => by
      have ih := padText_end k (g2 :: rest) (by simp)
        (fun x hx => hnl x (List.mem_cons_of_mem _ hx))
      rw [List.map_cons] at ih
      simp only [joinNl, List.map_cons]
      rw [pyReplaceChar_append, pyReplaceChar_cons_tgt,
        pyReplaceChar_no_tgt g '\n' _ (hnl g (List.mem_cons_self g _)), ← ih]
      simp [List.append_assoc]

/-- C7: after extraction, the guides-file padding surrounds each guide
with a run of N characters of pam_length: prepended when the PAM is
upstream (pam_start true), appended when it is downstream; it is a pure
concatenation, so slicing the padded guide at the expected offset
recovers the extracted guide unchanged, and the padded length is the
guide length plus the PAM length. -/
theorem padding_per_guide (b : Bool) (k : Nat) (gs : List PyStr)
    (hne : gs ≠ []) (hnl : ∀ g ∈ gs, '\n' ∉ g) :
    padGuidesText b k (joinNl gs) = joinNl (gs.map (padGuide b k)) ∧
      ∀ g ∈ gs,
        padGuide true k g = nRun k ++ g ∧
        padGuide false k g = g ++ nRun k ∧
        pySlice (padGuide b k g) (if b then k else 0)
          ((if b then k else 0) + g.length) = g ∧
        (padGuide b k g).length = g.length + k := by
  constructor
  · cases b
    · have h1 := padText_end k gs hne hnl
      have h2 : List.map (fun g => g ++ nRun k) gs = List.map (padGuide false k) gs :=
        List.map_congr_left (fun g _ => rfl)
      show pyReplaceChar (joinNl gs) '\n' (nRun k ++ ['\n']) ++ nRun k
          = joinNl (List.map (padGuide false k) gs)
      rw [← h2]
      exact h1
    · have h1 := padText_begin k gs hne hnl
      have h2 : List.map (fun g => nRun k ++ g) gs = List.map (padGuide true k) gs :=
        List.map_congr_left (fun g _ => rfl)
      show nRun k ++ pyReplaceChar (joinNl gs) '\n' ('\n' :: nRun k)
          = joinNl (List.map (padGuide true k) gs)
      rw [← h2]
      exact h1
  · intro g _
    refine ⟨rfl, rfl, ?_, ?_⟩
    · cases b
      · show pySlice (g ++ nRun k) 0 (0 + g.length) = g
        unfold pySlice
        rw [List.drop_zero]
        have : 0 + g.length - 0 = g.length := by omega
        rw [this, List.take_left]
      · show pySlice (nRun k ++ g) k (k + g.length) = g
        unfold pySlice
        have h2 : (nRun k ++ g).drop k = g :=
          List.drop_left' (by simp [nRun])
        rw [h2]
        have : k + g.length - k = g.length := by omega
        rw [this, List.take_length]
    · cases b
      · show (g ++ nRun k).length = g.length + k
        simp [nRun]
      · show (nRun k ++ g).length = g.length + k
        simp [nRun, Nat.add_comm]

/-- Witness for C7 on two guides with PAM length 2, downstream side. -/
theorem padding_per_guide_witness :
    padGuidesText false 2 (joinNl ["ACG".toList, "TTT".toList])
        = joinNl ((["ACG".toList, "TTT".toList] : List PyStr).map (padGuide false 2)) ∧
      pySlice (padGuide false 2 "ACG".toList) 0 (0 + 3) = "ACG".toList :=
  ⟨(padding_per_guide false 2 ["ACG".toList, "TTT".toList]
      (by decide) (by decide)).1,
    ((padding_per_guide false 2 ["ACG".toList, "TTT".toList]
      (by decide) (by decide)).2 "ACG".toList (by decide)).2.2.1⟩

end CRISPRme
